import Mathlib

set_option maxRecDepth 100000

/-!
Verification development for the Mythic-Lite conversation memory and
summarization pipeline.

The definitions below are a shallow embedding of the Python sources:
  * `src/mythic_lite/core/conversation_worker.py`   (class `ConversationWorker`)
  * `src/mythic_lite/workers/summarization_worker.py` (class `SummarizationWorker`)
  * `src/mythic_lite/workers/memory_worker.py`        (class `MemoryWorker`)

Python strings are modelled by Lean `String` values, with slicing, splitting,
lower-casing, stripping and replacement reimplemented at the level of the
underlying character list so that every operation is executable and has exact
Python semantics (including negative slice indices).  Python `float`
timestamps (`time.time()` values) are modelled by `ℤ`: they are opaque clock
readings that only ever flow through order comparisons and the fixed-offset
subtraction of the TTL cleanup, so an integer clock captures their role
exactly while keeping every comparison decidable.  The memory worker's
relevance scores are Python floats; they are modelled exactly: every value
the scoring loop can produce is an integer multiple of 2^(-54), so scores
are carried as naturals in units of 2^(-54) and every float operation is the
exact operation followed by `roundBinary64`, IEEE-754 round-to-nearest-even
at 53 significant bits.  The llama-cpp chat-completion call made by
the summarization worker is an external black box; it is modelled by an
oracle (`AIOutcome`) describing how the call ends: completing in time with a
response, raising, or exceeding the 15 s join timeout (in which case the
thread's eventual late result is recorded but, as in the source, never read).
-/

namespace MythicLite

/-! ## Python string primitives -/

/-- Python `s[:n]` for a non-negative index: first `n` characters. -/
def strTake (n : Nat) (s : String) : String := ⟨s.data.take n⟩

/-- Python `s[n:]` for a non-negative index: drop the first `n` characters. -/
def strDrop (n : Nat) (s : String) : String := ⟨s.data.drop n⟩

/-- Python `s[:n]` for an arbitrary (possibly negative) integer index:
a negative `n` counts from the end of the string. -/
def pySlice (n : Int) (s : String) : String :=
  if n < 0 then ⟨s.data.take (s.data.length - n.natAbs)⟩ else ⟨s.data.take n.toNat⟩

/-- Python `s.lower()`. -/
def lowerStr (s : String) : String := ⟨s.data.map Char.toLower⟩

/-- Python `s.strip()`: remove leading and trailing whitespace. -/
def trimStr (s : String) : String :=
  ⟨((s.data.dropWhile Char.isWhitespace).reverse.dropWhile Char.isWhitespace).reverse⟩

/-- Split a character list at every character satisfying `p`, keeping empty
groups (the behaviour of Python `str.split(sep)` for a one-character `sep`). -/
def splitRuns (p : Char → Bool) : List Char → List (List Char)
  | [] => [[]]
  | h :: t =>
    match splitRuns p t with
    | [] => [[]]
    | g :: gs => if p h then [] :: g :: gs else (h :: g) :: gs

/-- Python `s.split(c)` for a single separator character. -/
def splitOnChar (c : Char) (s : String) : List String :=
  (splitRuns (fun d => d = c) s.data).map fun l => ⟨l⟩

/-- Python `s.split()`: split on whitespace runs, discarding empty pieces. -/
def splitWords (s : String) : List String :=
  ((splitRuns (fun c => c.isWhitespace) s.data).filter (fun l => l ≠ [])).map fun l => ⟨l⟩

/-- Python `s.startswith(pre)`. -/
def startsWithStr (s pre : String) : Bool := pre.data.isPrefixOf s.data

/-- Does `pat` occur as a contiguous run inside `l`?  (Python `pat in s`.) -/
def isSubList (pat : List Char) : List Char → Bool
  | [] => pat.isEmpty
  | h :: t => pat.isPrefixOf (h :: t) || isSubList pat t

/-- Python `needle in hay` on strings. -/
def isSubstrIn (needle hay : String) : Bool := isSubList needle.data hay.data

/-- Left-to-right non-overlapping replacement of a non-empty pattern; the
fuel argument (instantiated with the length of the list) makes the recursion
structural.  Each step either consumes one character or the whole pattern. -/
def replaceAux (pat rep : List Char) : Nat → List Char → List Char
  | 0, l => l
  | _ + 1, [] => []
  | fuel + 1, c :: cs =>
    if pat.isPrefixOf (c :: cs) then rep ++ replaceAux pat rep fuel ((c :: cs).drop pat.length)
    else c :: replaceAux pat rep fuel cs

/-- Python `s.replace(pat, rep)`.  All call sites in the sources use a fixed
non-empty pattern; for an empty pattern we return `s` unchanged. -/
def strReplace (s pat rep : String) : String :=
  if pat.data.isEmpty then s else ⟨replaceAux pat.data rep.data s.data.length s.data⟩

/-- Python `l[-n:]`: the last `n` elements of a list. -/
def lastN (n : Nat) (l : List α) : List α := l.drop (l.length - n)

/-! ## Data model

`Message` is one entry of `ConversationWorker.conversation_history`
(a dict with keys `role`, `content`, `timestamp`). -/

structure Message where
  role : String
  content : String
  timestamp : ℤ
deriving Repr, DecidableEq

/-- Mutable state of a `ConversationWorker`: `conversation_history` and
`conversation_summary`. -/
structure ConvState where
  history : List Message
  summary : String
deriving Repr, DecidableEq

/-- The conversation settings consumed from configuration
(`utils/cli_helpers.py`, `conversation` section). -/
structure ConversationConfig where
  max_conversation_length : Nat
  max_tokens_per_message : Nat
  memory_compression_threshold : Nat
  auto_summarize_interval : Nat
deriving Repr, DecidableEq

/-- The defaults built in `utils/cli_helpers.py` (lines 130–135). -/
def defaultConversationConfig : ConversationConfig :=
  { max_conversation_length := 12
    max_tokens_per_message := 200
    memory_compression_threshold := 8
    auto_summarize_interval := 4 }

/-- Outcome of one llama-cpp chat-completion call made on the worker thread of
`SummarizationWorker.create_continuous_summary`:
  * `completes r` — the thread finishes within the 15 s join timeout and
    stores `r` in `result[0]` (`none` models a `None` response,
    `some raw` the extracted, stripped message content);
  * `raises` — the thread finishes within the timeout having stored an
    exception in `exception[0]`;
  * `timesOut late` — `summary_thread.is_alive()` still holds after
    `join(timeout=15.0)`; `late` is what the abandoned thread would
    eventually write into its local `result` cell, which no one reads. -/
inductive AIOutcome where
  | completes (resp : Option String)
  | raises
  | timesOut (late : Option String)
deriving Repr, DecidableEq

/-- A `SummarizationWorker` as seen by the conversation worker: its
`is_enabled` flag, whether `self.summarizer` is loaded, and the oracle for
its next model call. -/
structure Worker where
  is_enabled : Bool
  hasModel : Bool
  ai : AIOutcome
deriving Repr, DecidableEq

/-! ## `SummarizationWorker._create_simple_summary` (lines 531–574)

The deterministic fallback summarizer. -/

/-- Parse the transcript into visitor and mythic message lists
(lines 534–548 of `summarization_worker.py`). -/
def parseTranscript (conversation_text : String) : List String × List String :=
  let lines := splitOnChar '\n' conversation_text
  let step := fun (acc : List String × List String) (rawLine : String) =>
    let line := trimStr rawLine
    if startsWithStr line "Visitor:" then
      let content := trimStr (strReplace line "Visitor:" "")
      if content ≠ "" ∧ 3 < content.length then (acc.1 ++ [content], acc.2) else acc
    else if startsWithStr line "Mythic:" then
      let content := trimStr (strReplace line "Mythic:" "")
      if content ≠ "" ∧ 3 < content.length then (acc.1, acc.2 ++ [content]) else acc
    else acc
  lines.foldl step ([], [])

/-- `SummarizationWorker._create_simple_summary`: deterministic text
extraction used when AI summarization is unavailable or times out. -/
def create_simple_summary (conversation_text current_summary : String)
    (max_length : Nat) : String :=
  let parsed := parseTranscript conversation_text
  let visitor_messages := parsed.1
  let mythic_messages := parsed.2
  if visitor_messages ≠ [] ∧ mythic_messages ≠ [] then
    let summary :=
      if current_summary ≠ "" ∧ current_summary ≠ "Conversation in progress..." then
        let recent_visitor :=
          match visitor_messages.getLast? with
          | some v => strTake 40 v
          | none => "recent topics"
        "Continuing our scenario about " ++ strTake 30 current_summary ++
          "... The visitor just mentioned: " ++ recent_visitor
      else
        let first_visitor :=
          match visitor_messages.head? with
          | some v => strTake 50 v
          | none => "their needs"
        "New visitor arrived seeking " ++ first_visitor ++
          ". I\x27m helping them with their situation."
    if max_length < summary.length then
      pySlice ((max_length : Int) - 3) summary ++ "..."
    else summary
  else
    if current_summary ≠ "" ∧ current_summary ≠ "Conversation in progress..." then
      "Continuing our previous scenario about " ++
        pySlice ((max_length : Int) - 30) current_summary ++ "..."
    else
      "New conversation scenario beginning..."

/-! ## `SummarizationWorker.create_continuous_summary` (lines 418–529)

The AI-assisted incremental summarizer with timeout protection.  The model
call itself is the `AIOutcome` oracle; everything around it — the
enabled/loaded guard, the timeout fallback, the response cleaning, the
clipping and the meaningfulness floor — follows the source. -/

/-- The prefix-stripping loop over
`['summary:', 'summary', 'summarize:', 'summarize']` (lines 509–514):
the first matching prefix is removed (case-insensitively) and the result is
stripped. -/
def stripSummaryLabel (s : String) : String :=
  if startsWithStr (lowerStr s) "summary:" then trimStr (strDrop 8 s)
  else if startsWithStr (lowerStr s) "summary" then trimStr (strDrop 7 s)
  else if startsWithStr (lowerStr s) "summarize:" then trimStr (strDrop 10 s)
  else if startsWithStr (lowerStr s) "summarize" then trimStr (strDrop 9 s)
  else s

/-- Cleaning applied to a raw model response (lines 506–525): strip a label
prefix, remove remaining `Summary:`/`summary:` artifacts, clip to
`max_length`, and return `none` unless the result is non-empty with more
than 5 characters after stripping. -/
def cleanAISummary (raw : String) (max_length : Nat) : Option String :=
  let s0 := trimStr raw
  let s1 := stripSummaryLabel s0
  let s2 := trimStr (strReplace (strReplace s1 "Summary:" "") "summary:" "")
  let s3 :=
    if max_length < s2.length then pySlice ((max_length : Int) - 3) s2 ++ "..."
    else s2
  if s3 ≠ "" ∧ 5 < (trimStr s3).length then some s3 else none

/-- `SummarizationWorker.create_continuous_summary`.  Returns `none` exactly
where the Python function returns `None`. -/
def create_continuous_summary (w : Worker) (conversation_text current_summary : String)
    (max_length : Nat) : Option String :=
  if ¬ (w.is_enabled ∧ w.hasModel) then
    some (create_simple_summary conversation_text current_summary max_length)
  else
    match w.ai with
    | .timesOut _ =>
      some (create_simple_summary conversation_text current_summary max_length)
    | .raises => none
    | .completes none => none
    | .completes (some raw) => cleanAISummary raw max_length

/-! ## `ConversationWorker` (core/conversation_worker.py) -/

/-- The system prompt literal of `ConversationWorker.__init__` (lines 24–26). -/
def system_prompt : String :=
  "<|system|>\nYou are MYTHIC, a fierce 19th-century female mercenary. Tough, practical, loyal. Use Victorian expressions: \"Bloody hell,\" \"By Jove,\" \"mate.\" Stay in character as a real mercenary.\n</s>"

/-- Render messages as a flat role-labelled transcript, as done in
`continuous_summarize` (lines 244–246) and `_create_conversation_summary`
(lines 117–119): `user` becomes `Visitor:` and every other role `Mythic:`. -/
def renderConversation (msgs : List Message) : String :=
  msgs.foldl
    (fun acc m =>
      acc ++ (if m.role = "user" then "Visitor" else "Mythic") ++ ": " ++ m.content ++ "\n")
    ""

/-- The summary-acceptance step shared by `continuous_summarize`
(lines 255–269) and `_create_conversation_summary` (lines 128–138): accept a
proposed summary if it is non-empty with more than 5 characters when
stripped; strip a literal `Summary:` prefix if present, requiring the
cleaned text to still be meaningful.  Returns the accepted summary or
`none` to leave the current one unchanged. -/
def acceptSummary (proposed : Option String) : Option String :=
  match proposed with
  | none => none
  | some s =>
    if s ≠ "" ∧ 5 < (trimStr s).length then
      if ¬ startsWithStr (lowerStr s) "summary:" then some (trimStr s)
      else
        let clean := trimStr (strReplace s "Summary:" "")
        if clean ≠ "" ∧ 5 < clean.length then some clean else none
    else none

/-- `ConversationWorker._create_conversation_summary` (lines 110–178),
expressed as the new value of `conversation_summary`.  First the AI path
(continuous summary over the last 10 old messages at max length 150); if the
result is not accepted, the simple topic/key-point extraction (lines
140–172).  When both extraction lists are empty the summary is unchanged. -/
def create_conversation_summary (w : Option Worker) (old_messages : List Message)
    (current_summary : String) : String :=
  let aiAccepted : Option String :=
    match w with
    | some wk =>
      if wk.is_enabled then
        let conversation_text := renderConversation (lastN 10 old_messages)
        if conversation_text ≠ "" then
          acceptSummary (create_continuous_summary wk conversation_text current_summary 150)
        else none
      else none
    | none => none
  match aiAccepted with
  | some s => s
  | none =>
    let user_topics := old_messages.filterMap fun m =>
      if m.role = "user" then
        let content := lowerStr m.content
        if 20 < content.length then
          some (String.intercalate " " ((splitWords content).take 8) ++ "...")
        else some content
      else none
    let assistant_responses := old_messages.filterMap fun m =>
      if m.role = "assistant" then
        let content := lowerStr m.content
        if 30 < content.length then
          some (String.intercalate ". " ((splitOnChar '.' content).take 2) ++ "...")
        else some content
      else none
    if user_topics ≠ [] ∨ assistant_responses ≠ [] then
      let summary_parts :=
        (if user_topics ≠ [] then
          ["Visitor: " ++ String.intercalate ", " (lastN 4 user_topics)] else []) ++
        (if assistant_responses ≠ [] then
          ["Mythic: " ++ String.intercalate ", " (lastN 4 assistant_responses)] else [])
      String.intercalate " | " summary_parts
    else current_summary

/-- The summary update performed inside `continuous_summarize`
(lines 242–269): AI incremental summary over the last 8 old messages at max
length 120, accepted via the meaningfulness checks; otherwise the summary is
left unchanged. -/
def continuousUpdate (w : Option Worker) (old_messages : List Message)
    (current_summary : String) : String :=
  match w with
  | some wk =>
    if wk.is_enabled then
      let conversation_text := renderConversation (lastN 8 old_messages)
      if conversation_text ≠ "" then
        match acceptSummary (create_continuous_summary wk conversation_text current_summary 120) with
        | some s => s
        | none => current_summary
      else current_summary
    else current_summary
  | none => current_summary

/-- `ConversationWorker.continuous_summarize` (lines 229–274): when more than
6 messages are held, fold the older ones into the summary and keep the last
6, returning `True`; otherwise do nothing and return `False`. -/
def continuous_summarize (w : Option Worker) (st : ConvState) : ConvState × Bool :=
  if 6 < st.history.length then
    let old_messages := st.history.take (st.history.length - 6)
    if old_messages ≠ [] then
      ({ history := lastN 6 st.history
         summary := continuousUpdate w old_messages st.summary }, true)
    else (st, false)
  else (st, false)

/-- The truncation of `add_to_conversation` (lines 76–78). -/
def truncateContent (max_tokens_per_message : Nat) (content : String) : String :=
  if max_tokens_per_message < content.length then
    strTake max_tokens_per_message content ++ "..."
  else content

/-- The fallback memory-management branch of `add_to_conversation`
(lines 93–99): summarize everything but the last 8 messages, then keep the
last 8. -/
def addFallback (w : Option Worker) (st : ConvState) : ConvState :=
  let old_messages := st.history.take (st.history.length - 8)
  let summary' :=
    if old_messages ≠ [] then create_conversation_summary w old_messages st.summary
    else st.summary
  { history := lastN 8 st.history, summary := summary' }

/-- `ConversationWorker.add_to_conversation` (lines 74–99). -/
def add_to_conversation (cfg : ConversationConfig) (w : Option Worker)
    (role content : String) (now : ℤ) (st : ConvState) : ConvState :=
  let content' := truncateContent cfg.max_tokens_per_message content
  let st1 : ConvState :=
    { history := st.history ++ [⟨role, content', now⟩], summary := st.summary }
  if cfg.max_conversation_length < st1.history.length then
    match w with
    | some wk =>
      if wk.is_enabled then
        match continuous_summarize (some wk) st1 with
        | (st2, true) => st2
        | (st2, false) => addFallback w st2
      else addFallback w st1
    | none => addFallback w st1
  else st1

/-- `ConversationWorker._force_summarization` (lines 101–108): with more than
4 messages, summarize all but the last 4 and keep only the last 4. -/
def force_summarization (w : Option Worker) (st : ConvState) : ConvState :=
  if 4 < st.history.length then
    let old_messages := st.history.take (st.history.length - 4)
    let summary' :=
      if old_messages ≠ [] then create_conversation_summary w old_messages st.summary
      else st.summary
    { history := lastN 4 st.history, summary := summary' }
  else st

/-- Prompt assembly of `format_chat_prompt` (lines 32–51): system prompt,
optional summary context block, the last 6 history messages, the current
user input, and the assistant marker. -/
def buildPrompt (summary : String) (history : List Message) (user_input : String) : String :=
  let p0 := system_prompt
  let p1 :=
    if summary ≠ "" then p0 ++ "\n<|system|>\nContext: " ++ summary ++ "</s>" else p0
  let recent_messages := lastN 6 history
  let p2 := recent_messages.foldl
    (fun acc m =>
      if m.role = "user" then acc ++ "\n<|user|>\n" ++ m.content ++ "</s>"
      else if m.role = "assistant" then acc ++ "\n<|assistant|>\n" ++ m.content ++ "</s>"
      else acc)
    p1
  p2 ++ "\n<|user|>\n" ++ user_input ++ "</s>" ++ "\n<|assistant|>"

/-- Modelled from the spec: `LLMWorker.check_prompt_length`, called at line 55
of `conversation_worker.py`, is not present anywhere in the source tree (only
this call site exists).  The spec (§4.2, token-budget trigger) describes the
estimate as "content length ÷ 4, a coarse approximation". -/
def check_prompt_length (prompt : String) : Nat := prompt.length / 4

/-- `ConversationWorker.format_chat_prompt` (lines 30–72) with an explicit
fuel bound on the self-recursion at lines 65 and 70.  `hasLLM` models the
`if llm_worker:` test.  `none` means the recursion has not produced a prompt
within `fuel` rounds (the Python code would still be recursing). -/
def format_chat_prompt_aux (w : Option Worker) (hasLLM : Bool) (user_input : String) :
    Nat → ConvState → Option String
  | 0, _ => none
  | fuel + 1, st =>
    let prompt := buildPrompt st.summary st.history user_input
    if hasLLM then
      if 350 < check_prompt_length prompt then
        match w with
        | some wk =>
          if wk.is_enabled then
            match continuous_summarize (some wk) st with
            | (st2, true) => format_chat_prompt_aux w hasLLM user_input fuel st2
            | (st2, false) =>
              format_chat_prompt_aux w hasLLM user_input fuel (force_summarization w st2)
          else format_chat_prompt_aux w hasLLM user_input fuel (force_summarization w st)
        | none => format_chat_prompt_aux w hasLLM user_input fuel (force_summarization w st)
      else some prompt
    else some prompt

/-! ## `MemoryWorker` (workers/memory_worker.py)

A stored exchange (`conversation_entry`, lines 164–171).  The `context` map
does not participate in recall or expiry and is omitted.  `keywords` is a
Python set of strings, modelled as a list of its elements. -/

structure MemoryRecord where
  timestamp : ℤ
  user_input : String
  ai_response : String
  summary : Option String
  keywords : List String
deriving Repr, DecidableEq

/-- Floor of the base-2 logarithm, by structural recursion on a fuel bound
(`n` halvings always suffice), so that it reduces in the kernel. -/
def log2Fuel : Nat → Nat → Nat
  | 0, _ => 0
  | fuel + 1, n => if n < 2 then 0 else log2Fuel fuel (n / 2) + 1

/-- Floor of the base-2 logarithm of `n` (0 for `n = 0`). -/
def natLog2 (n : Nat) : Nat := log2Fuel n n

/-- Round a non-negative value given in units of 2^(-54) to the nearest
IEEE-754 binary64 value (round-to-nearest, ties-to-even), in the same units.
Any `p < 2^53` has a 53-bit significand and binary64's exponent range
reaches far below 2^(-54), so such values are already exactly representable;
for larger values the significand is cut to 53 bits with the usual
nearest/ties-to-even rule (a carry to a 54-bit mantissa yields an exact
power-of-two multiple, which is again representable).  Overflow to infinity
(magnitudes near 2^1024) is unreachable by any relevance score and is not
modelled. -/
def roundBinary64 (p : Nat) : Nat :=
  if p < 2 ^ 53 then p
  else
    let shift := natLog2 p - 52
    let n := p / 2 ^ shift
    let rem := p % 2 ^ shift
    let half := 2 ^ (shift - 1)
    let m := if rem < half then n
      else if half < rem then n + 1
      else if n % 2 = 0 then n else n + 1
    m * 2 ^ shift

/-- Binary64 addition on values in units of 2^(-54): the exact sum (which is
again a multiple of 2^(-54)) rounded to the nearest binary64. -/
def faddU (x y : Nat) : Nat := roundBinary64 (x + y)

/-- Binary64 product of a Python int `k` and a binary64 constant `d` (given
in units of 2^(-54)): the exact product rounded to the nearest binary64.
For `k < 2^53` — any overlap count a real query can produce — the source's
int-to-float conversion of `k` is exact, so this is exactly its `k * 0.3`
or `k * 0.5`. -/
def fmulU (k : Nat) (d : Nat) : Nat := roundBinary64 (k * d)

/-- The binary64 value of the literal `0.3`, in units of 2^(-54):
0.299999999999999988897769753748434595763683319091796875. -/
def double03 : Nat := 5404319552844595

/-- The binary64 value of the literal `0.5` (exact), in units of 2^(-54). -/
def double05 : Nat := 2 ^ 53

/-- A Python integer score contribution, in units of 2^(-54). -/
def intScore (c : Nat) : Nat := c * 2 ^ 54

/-- The relevance score of `recall_relevant_memory` (lines 210–238), as the
source computes it, in units of 2^(-54).  The accumulation follows the
source line by line: `relevance_score += 2` is a Python int addition (always
exact, hence a plain `+`); every addition after `word_overlap * 0.5` and the
`keyword_overlap * 0.3` term are float operations and go through the
binary64 rounding (`faddU`/`fmulU`).  When the user-input branch is skipped
the Python value is still an int and its additions are exact; at those
points the accumulated value is a small multiple of 2^(54), on which
`faddU` is the identity, so the uniform use of `faddU` coincides with the
source there too.  Every branch keeps the source's truthiness guards. -/
def relevance_score (query : String) (r : MemoryRecord) : Nat :=
  let query_lower := lowerStr query
  let query_words := (splitWords query_lower).dedup
  let s0 : Nat := 0
  let s1 :=
    if r.user_input ≠ "" then
      let sa := if isSubstrIn query_lower (lowerStr r.user_input) then s0 + intScore 2 else s0
      faddU sa (fmulU
        (query_words.filter (fun w => w ∈ splitWords (lowerStr r.user_input))).length
        double05)
    else s0
  let s2 :=
    if r.ai_response ≠ "" then
      if isSubstrIn query_lower (lowerStr r.ai_response) then faddU s1 (intScore 1) else s1
    else s1
  let s3 :=
    match r.summary with
    | some s =>
      if s ≠ "" then
        (if isSubstrIn query_lower (lowerStr s) then faddU s2 (intScore 3) else s2)
      else s2
    | none => s2
  if r.keywords ≠ [] then
    faddU s3 (fmulU (query_words.filter (fun w => w ∈ r.keywords)).length double03)
  else s3

/-- Insert a record into a list already sorted by descending relevance,
placing it before the first strictly smaller score and after every earlier
record of equal score — the placement a stable descending sort gives it. -/
def insertByRelevance (query : String) (p : Nat × MemoryRecord) :
    List (Nat × MemoryRecord) → List (Nat × MemoryRecord)
  | [] => [p]
  | x :: xs =>
    if relevance_score query x.2 ≤ relevance_score query p.2 then p :: x :: xs
    else x :: insertByRelevance query p xs

/-- Stable sort by descending relevance, modelling
`relevant_memories.sort(key=lambda x: x['relevance'], reverse=True)`
(line 248; Python sorts are stable). -/
def sortByRelevance (query : String) (l : List (Nat × MemoryRecord)) :
    List (Nat × MemoryRecord) :=
  l.foldr (insertByRelevance query) []

/-- `MemoryWorker.recall_relevant_memory` (lines 196–255): score every cached
record in iteration order, keep the positive scorers, sort them stably by
descending relevance and return the first `max_results`.  Each result is
paired with the original iteration index of its record. -/
def recall_relevant_memory (query : String) (max_results : Nat)
    (store : List MemoryRecord) : List (Nat × MemoryRecord) :=
  let scored := store.enum.filter fun p => 0 < relevance_score query p.2
  (sortByRelevance query scored).take max_results

/-- `MemoryWorker._cleanup_expired_memories` (lines 320–341): drop every
record whose timestamp is older than `ttl_hours` before `now`. -/
def cleanup_expired_memories (ttl_hours now : ℤ)
    (cache : List (String × MemoryRecord)) : List (String × MemoryRecord) :=
  if cache = [] then cache
  else
    let cutoff_time := now - ttl_hours * 3600
    cache.filter fun p => ¬ (p.2.timestamp < cutoff_time)

/-! ## Sequences of appends -/

/-- One call to `add_to_conversation`: the summarization worker passed in
(with the oracle for any model call it makes during this cycle), the role,
the content, and the wall-clock time. -/
structure AddCall where
  worker : Option Worker
  role : String
  content : String
  now : ℤ
deriving Repr, DecidableEq

/-- Run a sequence of `add_to_conversation` calls from a starting state. -/
def runAdds (cfg : ConversationConfig) (calls : List AddCall) (st : ConvState) : ConvState :=
  calls.foldl (fun s c => add_to_conversation cfg c.worker c.role c.content c.now s) st

/-! ## Concrete instances used in the theorems below -/

/-- A configuration whose buffer bound is below the hard-coded fallback
window of 8 messages. -/
def c1Cfg : ConversationConfig := ⟨7, 200, 8, 4⟩

/-- Eight appends of a short user message with no summarization worker. -/
def c1Calls : List AddCall := List.replicate 8 ⟨none, "user", "short message", 0⟩

/-- Twenty appends of a short user message with no summarization worker. -/
def c1WitnessCalls : List AddCall := List.replicate 20 ⟨none, "user", "hello there mate", 0⟩

/-- A seven-message history, one over the continuous-summarization window. -/
def c2History : List Message :=
  [⟨"user", "tell me about the dragon", 0⟩,
   ⟨"assistant", "the dragon guards the northern keep", 1⟩,
   ⟨"user", "how do we get past it", 2⟩,
   ⟨"assistant", "we will need oil and a long spear", 3⟩,
   ⟨"user", "where do we buy the oil", 4⟩,
   ⟨"assistant", "the merchant by the docks sells it", 5⟩,
   ⟨"user", "then let us go tonight", 6⟩]

/-- An enabled, loaded summarization worker whose model call raises. -/
def c2Worker : Worker := ⟨true, true, .raises⟩

/-- Conversation state with a non-empty running summary and seven turns. -/
def c2State : ConvState := ⟨c2History, "the visitor hired me for an escort job"⟩

/-- A 1500-character user input, long enough that the assembled prompt stays
over the 350-token threshold no matter how often summarization runs. -/
def c3Input : String := ⟨List.replicate 1500 'a'⟩

/-- The empty conversation state of `ConversationWorker.__init__`. -/
def c3State : ConvState := ⟨[], ""⟩

/-- A 90-character running summary. -/
def c7Summary : String := ⟨List.replicate 90 'a'⟩

/-- A transcript parsed into non-empty visitor and mythic message lists. -/
def c7Transcript : String :=
  "Visitor: hello there mate\nMythic: greetings traveler friend\n"

/-- A 201-character message, one over the default per-message limit. -/
def c6Content : String := ⟨List.replicate 201 'a'⟩

/-- A record with an empty `user_input` and an empty `ai_response`. -/
def c5EmptyRecord : MemoryRecord := ⟨0, "", "", none, []⟩

/-- Record whose summary contains the query as a substring. -/
def c5RecA : MemoryRecord :=
  ⟨0, "tell me a story", "here is a story", some "we discussed the dragon quest", ["story"]⟩

/-- Record sharing only a keyword with the query. -/
def c5RecB : MemoryRecord := ⟨1, "hello there", "hi mate", none, ["dragon"]⟩

/-- Record unrelated to the query. -/
def c5RecC : MemoryRecord := ⟨2, "the weather today", "sunny skies", none, ["rain"]⟩

/-- Three-record store realising the spec scenario for recall ordering. -/
def c5Store : List MemoryRecord := [c5RecA, c5RecB, c5RecC]

/-- A six-word query for the float-rounding divergence. -/
def c5FloatQuery : String := "alpha bravo charlie delta echo foxtrot"

/-- Record sharing all six keywords with the query: the source scores it
`6 * 0.3 = 1.7999999999999998` (32425917317067568 units of 2^(-54)). -/
def c5FloatRec1 : MemoryRecord :=
  ⟨0, "", "", none, ["alpha", "bravo", "charlie", "delta", "echo", "foxtrot"]⟩

/-- Record sharing three words with `user_input` and one keyword: the source
scores it `3 * 0.5 + 1 * 0.3 = 1.8000000000000000444...`
(32425917317067572 units of 2^(-54)). -/
def c5FloatRec2 : MemoryRecord :=
  ⟨1, "alpha bravo charlie", "", none, ["delta"]⟩

/-- Two cached exchanges, one stale and one fresh. -/
def c9Cache : List (String × MemoryRecord) :=
  [("conv_0", ⟨0, "old question", "old answer", none, []⟩),
   ("conv_9000", ⟨9000, "new question", "new answer", none, []⟩)]

/-- The relevance formula exactly as the claim states it, read in exact real
arithmetic and without the source's truthiness guards on `user_input`,
`ai_response` and `keywords`; the weights 2, 1, 3, 0.3, 0.5 are scaled by 10
to the integers 20, 10, 30, 3, 5 (exact, unlike the source's floats): +2 for
a substring match in `user_input`, +1 in `ai_response`, +3 in `summary`,
+0.3 per shared keyword and +0.5 per word shared with `user_input`. -/
def relevance_score_claim (query : String) (r : MemoryRecord) : Nat :=
  let query_lower := lowerStr query
  let query_words := (splitWords query_lower).dedup
  (if isSubstrIn query_lower (lowerStr r.user_input) then 20 else 0) +
    (if isSubstrIn query_lower (lowerStr r.ai_response) then 10 else 0) +
    (match r.summary with
     | some s => if isSubstrIn query_lower (lowerStr s) then 30 else 0
     | none => 0) +
    3 * (query_words.filter (fun w => w ∈ r.keywords)).length +
    5 * (query_words.filter (fun w => w ∈ splitWords (lowerStr r.user_input))).length

/-! ## Helper lemmas -/

theorem length_mk (l : List Char) : (String.mk l).length = l.length := rfl

theorem strTake_length (n : Nat) (s : String) : (strTake n s).length = min n s.length := by
  show (s.data.take n).length = min n s.data.length
  exact List.length_take n s.data

theorem pySlice_of_nonneg (n : Int) (s : String) (h : 0 ≤ n) :
    pySlice n s = strTake n.toNat s := by
  simp [pySlice, strTake, not_lt.mpr h]

theorem lastN_length (n : Nat) (l : List α) :
    (lastN n l).length = l.length - (l.length - n) := by
  simp [lastN, List.length_drop]

theorem lastN_length_le (n : Nat) (l : List α) : (lastN n l).length ≤ n := by
  rw [lastN_length]; omega

theorem lastN_of_length_le (n : Nat) (l : List α) (h : l.length ≤ n) : lastN n l = l := by
  simp [lastN, Nat.sub_eq_zero_of_le h]

theorem lastN_lastN (n : Nat) (l : List α) : lastN n (lastN n l) = lastN n l :=
  lastN_of_length_le n _ (lastN_length_le n l)

theorem getLast?_lastN (n : Nat) (l : List α) (hn : 1 ≤ n) (hl : l ≠ []) :
    (lastN n l).getLast? = l.getLast? := by
  have hlen : 0 < l.length := List.length_pos.mpr hl
  have hne : List.drop (l.length - n) l ≠ [] := by
    apply List.ne_nil_of_length_pos
    rw [List.length_drop]
    omega
  show (List.drop (l.length - n) l).getLast? = l.getLast?
  conv_rhs => rw [← List.take_append_drop (l.length - n) l]
  rw [List.getLast?_append_of_ne_nil _ hne]

theorem take_ne_nil_of_lt (n : Nat) (l : List α) (h0 : 0 < n) (hl : n ≤ l.length) :
    l.take n ≠ [] := by
  apply List.ne_nil_of_length_pos
  rw [List.length_take]
  omega

/-- With more than 6 messages, `continuous_summarize` always trims to the
last 6 and reports success. -/
theorem continuous_summarize_of_lt (w : Option Worker) (st : ConvState)
    (h : 6 < st.history.length) :
    continuous_summarize w st =
      ({ history := lastN 6 st.history
         summary := continuousUpdate w (st.history.take (st.history.length - 6)) st.summary },
       true) := by
  have hold : st.history.take (st.history.length - 6) ≠ [] :=
    take_ne_nil_of_lt _ _ (by omega) (by omega)
  simp only [continuous_summarize, if_pos h, if_pos hold]

theorem addFallback_length_le (w : Option Worker) (st : ConvState) :
    (addFallback w st).history.length ≤ 8 := by
  simp only [addFallback]
  exact lastN_length_le 8 st.history

/-- One `add_to_conversation` cycle keeps the buffer within
`max_conversation_length` whenever that bound is at least 8. -/
theorem add_length_le (cfg : ConversationConfig) (w : Option Worker)
    (role content : String) (now : ℤ) (st : ConvState)
    (h8 : 8 ≤ cfg.max_conversation_length) :
    (add_to_conversation cfg w role content now st).history.length ≤
      cfg.max_conversation_length := by
  unfold add_to_conversation
  by_cases hlen :
      cfg.max_conversation_length <
        (st.history ++ [Message.mk role (truncateContent cfg.max_tokens_per_message content) now]).length
  · rw [if_pos hlen]
    have h6 :
        6 < (ConvState.mk
          (st.history ++ [Message.mk role (truncateContent cfg.max_tokens_per_message content) now])
          st.summary).history.length := by
      simp only [List.length_append, List.length_cons, List.length_nil] at hlen ⊢
      omega
    cases w with
    | none =>
      dsimp only
      exact le_trans (addFallback_length_le none _) h8
    | some wk =>
      dsimp only
      by_cases hen : wk.is_enabled = true
      · rw [if_pos hen, continuous_summarize_of_lt _ _ h6]
        dsimp only
        exact le_trans (lastN_length_le 6 _) (by omega)
      · rw [if_neg hen]
        exact le_trans (addFallback_length_le _ _) h8
  · rw [if_neg hlen]
    exact Nat.le_of_not_lt hlen

theorem continuous_summarize_of_le (w : Option Worker) (st : ConvState)
    (h : ¬ 6 < st.history.length) : continuous_summarize w st = (st, false) := by
  simp only [continuous_summarize, if_neg h]

/-- After any `add_to_conversation` cycle the history is some non-empty
suffix of the old history with the new truncated turn appended. -/
theorem add_history_shape (cfg : ConversationConfig) (w : Option Worker)
    (role content : String) (now : ℤ) (st : ConvState) :
    ∃ k, 1 ≤ k ∧ (add_to_conversation cfg w role content now st).history =
      lastN k (st.history ++
        [Message.mk role (truncateContent cfg.max_tokens_per_message content) now]) := by
  unfold add_to_conversation
  by_cases hlen :
      cfg.max_conversation_length <
        (st.history ++
          [Message.mk role (truncateContent cfg.max_tokens_per_message content) now]).length
  · rw [if_pos hlen]
    cases w with
    | none =>
      dsimp only
      exact ⟨8, by omega, rfl⟩
    | some wk =>
      dsimp only
      by_cases hen : wk.is_enabled = true
      · rw [if_pos hen]
        by_cases h6 :
            6 < (ConvState.mk
              (st.history ++
                [Message.mk role (truncateContent cfg.max_tokens_per_message content) now])
              st.summary).history.length
        · rw [continuous_summarize_of_lt _ _ h6]
          dsimp only
          exact ⟨6, by omega, rfl⟩
        · rw [continuous_summarize_of_le _ _ h6]
          dsimp only
          exact ⟨8, by omega, rfl⟩
      · rw [if_neg hen]
        exact ⟨8, by omega, rfl⟩
  · rw [if_neg hlen]
    refine ⟨(st.history ++
        [Message.mk role (truncateContent cfg.max_tokens_per_message content) now]).length,
      ?_, (lastN_of_length_le _ _ le_rfl).symm⟩
    simp

/-- The prompt built from the empty state and the 1500-character input is
over the 350-token threshold of `format_chat_prompt`. -/
theorem c3_over_budget :
    350 < check_prompt_length (buildPrompt c3State.summary c3State.history c3Input) := by
  have hp : buildPrompt c3State.summary c3State.history c3Input =
      system_prompt ++ "\n<|user|>\n" ++ c3Input ++ "</s>" ++ "\n<|assistant|>" := rfl
  unfold check_prompt_length
  rw [hp]
  simp only [String.length_append]
  have h1 : c3Input.length = 1500 := by
    show (List.replicate 1500 'a').length = 1500
    simp
  have h2 : ("\n<|user|>\n" : String).length = 10 := rfl
  have h3 : ("</s>" : String).length = 4 := rfl
  have h4 : ("\n<|assistant|>" : String).length = 14 := rfl
  rw [h1, h2, h3, h4]
  omega

/-- One recursion round of `format_chat_prompt` from the over-budget fixed
point: the forced pass does nothing (the history is already within the keep
window) and the function re-enters itself on an identical state. -/
theorem c3_step (fuel : Nat) :
    format_chat_prompt_aux none true c3Input (fuel + 1) c3State =
      format_chat_prompt_aux none true c3Input fuel c3State := by
  have hlen := c3_over_budget
  simp only [format_chat_prompt_aux, if_true]
  rw [if_pos hlen]
  rfl

/-- Clipping bound for the structured branch of the fallback summarizer. -/
theorem clip_len_le (s : String) (m : Nat) (h3 : 3 ≤ m) :
    (if m < s.length then pySlice ((m : Int) - 3) s ++ "..." else s).length ≤ m := by
  split_ifs with h
  · rw [String.length_append]
    have hsl : pySlice ((m : Int) - 3) s = strTake (m - 3) s := by
      rw [pySlice_of_nonneg _ _ (by omega)]
      congr 1
      omega
    rw [hsl, strTake_length]
    have hdots : ("..." : String).length = 3 := rfl
    rw [hdots]
    have := Nat.min_le_left (m - 3) s.length
    omega
  · omega

/-! Stable-sort lemmas for the recall relevance ordering. -/

theorem insertByRelevance_perm (q : String) (p : Nat × MemoryRecord)
    (l : List (Nat × MemoryRecord)) : (insertByRelevance q p l).Perm (p :: l) := by
  induction l with
  | nil => simp [insertByRelevance]
  | cons x xs ih =>
    simp only [insertByRelevance]
    split_ifs with h
    · exact List.Perm.refl _
    · exact (List.Perm.cons x ih).trans (List.Perm.swap p x xs)

theorem sortByRelevance_perm (q : String) (l : List (Nat × MemoryRecord)) :
    (sortByRelevance q l).Perm l := by
  induction l with
  | nil => exact List.Perm.refl _
  | cons p xs ih =>
    exact (insertByRelevance_perm q p (sortByRelevance q xs)).trans (List.Perm.cons p ih)

theorem insertByRelevance_pairwise (q : String) (p : Nat × MemoryRecord)
    (l : List (Nat × MemoryRecord))
    (hl : l.Pairwise (fun a b => relevance_score q b.2 < relevance_score q a.2 ∨
      (relevance_score q a.2 = relevance_score q b.2 ∧ a.1 < b.1)))
    (hidx : ∀ x ∈ l, p.1 < x.1) :
    (insertByRelevance q p l).Pairwise
      (fun a b => relevance_score q b.2 < relevance_score q a.2 ∨
        (relevance_score q a.2 = relevance_score q b.2 ∧ a.1 < b.1)) := by
  induction l with
  | nil => simp [insertByRelevance]
  | cons x xs ih =>
    rw [List.pairwise_cons] at hl
    obtain ⟨hx, hxs⟩ := hl
    simp only [insertByRelevance]
    split_ifs with hle
    · refine List.Pairwise.cons ?_ (List.Pairwise.cons hx hxs)
      intro y hy
      rcases List.mem_cons.mp hy with hyx | hyxs
      · subst hyx
        rcases lt_or_eq_of_le hle with h | h
        · exact Or.inl h
        · exact Or.inr ⟨h.symm, hidx y (List.mem_cons_self y xs)⟩
      · rcases hx y hyxs with h | ⟨heq, hlt⟩
        · exact Or.inl (lt_of_lt_of_le h hle)
        · rw [heq] at hle
          rcases lt_or_eq_of_le hle with h | h
          · exact Or.inl h
          · exact Or.inr ⟨h.symm, hidx y (List.mem_cons_of_mem x hyxs)⟩
    · refine List.Pairwise.cons ?_
        (ih hxs (fun z hz => hidx z (List.mem_cons_of_mem x hz)))
      intro y hy
      have hy' : y ∈ p :: xs := (insertByRelevance_perm q p xs).mem_iff.mp hy
      rcases List.mem_cons.mp hy' with hyp | hyxs
      · subst hyp
        exact Or.inl (not_le.mp hle)
      · exact hx y hyxs

theorem sortByRelevance_pairwise (q : String) (l : List (Nat × MemoryRecord))
    (hidx : l.Pairwise (fun a b => a.1 < b.1)) :
    (sortByRelevance q l).Pairwise
      (fun a b => relevance_score q b.2 < relevance_score q a.2 ∨
        (relevance_score q a.2 = relevance_score q b.2 ∧ a.1 < b.1)) := by
  induction l with
  | nil => simp [sortByRelevance]
  | cons p xs ih =>
    rw [List.pairwise_cons] at hidx
    obtain ⟨hp, hxs⟩ := hidx
    show (insertByRelevance q p (sortByRelevance q xs)).Pairwise _
    refine insertByRelevance_pairwise q p _ (ih hxs) ?_
    intro x hx
    exact hp x ((sortByRelevance_perm q xs).mem_iff.mp hx)

theorem le_fst_of_mem_enumFrom {α : Type _} {x : Nat × α} :
    ∀ {n : Nat} {l : List α}, x ∈ List.enumFrom n l → n ≤ x.1 := by
  intro n l
  induction l generalizing n with
  | nil => intro h; simp at h
  | cons a t ih =>
    intro h
    rcases List.mem_cons.mp h with h1 | h2
    · subst h1; exact le_refl n
    · exact Nat.le_of_succ_le (ih h2)

theorem pairwise_fst_enumFrom {α : Type _} (n : Nat) (l : List α) :
    (List.enumFrom n l).Pairwise (fun a b => a.1 < b.1) := by
  induction l generalizing n with
  | nil => simp
  | cons a t ih =>
    refine List.Pairwise.cons ?_ (ih (n + 1))
    intro y hy
    exact Nat.lt_of_lt_of_le (Nat.lt_succ_self n) (le_fst_of_mem_enumFrom hy)

theorem pairwise_fst_enum {α : Type _} (l : List α) :
    l.enum.Pairwise (fun a b => a.1 < b.1) :=
  pairwise_fst_enumFrom 0 l

theorem getElem?_of_mem_enumFrom {α : Type _} {x : Nat × α} :
    ∀ {n : Nat} {l : List α}, x ∈ List.enumFrom n l → l[x.1 - n]? = some x.2 := by
  intro n l
  induction l generalizing n with
  | nil => intro h; simp at h
  | cons a t ih =>
    intro h
    rcases List.mem_cons.mp h with h1 | h2
    · subst h1; simp
    · have hge : n + 1 ≤ x.1 := le_fst_of_mem_enumFrom h2
      have hidx : x.1 - n = (x.1 - (n + 1)) + 1 := by omega
      rw [hidx, List.getElem?_cons_succ]
      exact ih h2

theorem getElem?_of_mem_enum {α : Type _} {x : Nat × α} {l : List α}
    (h : x ∈ l.enum) : l[x.1]? = some x.2 := by
  have := getElem?_of_mem_enumFrom (n := 0) h
  simpa using this

/-! ## Claim theorems -/

/-- C1 (amended): for every configuration with `max_conversation_length ≥ 8`
and every sequence of `add_to_conversation` calls — each with or without a
summarization worker — the conversation history length stays within
`max_conversation_length` after every append-and-maybe-summarize cycle,
starting from any state already within the bound. -/
theorem conversation_buffer_bound (cfg : ConversationConfig)
    (h8 : 8 ≤ cfg.max_conversation_length) (calls : List AddCall) (st : ConvState)
    (h0 : st.history.length ≤ cfg.max_conversation_length) :
    (runAdds cfg calls st).history.length ≤ cfg.max_conversation_length := by
  induction calls generalizing st with
  | nil => exact h0
  | cons c cs ih =>
    exact ih (add_to_conversation cfg c.worker c.role c.content c.now st)
      (add_length_le cfg c.worker c.role c.content c.now st h8)

/-- Witness for C1: twenty appends under the default configuration stay
within the default bound of 12. -/
theorem conversation_buffer_bound_witness :
    (runAdds defaultConversationConfig c1WitnessCalls ⟨[], ""⟩).history.length ≤
      defaultConversationConfig.max_conversation_length :=
  conversation_buffer_bound defaultConversationConfig (by decide) c1WitnessCalls
    ⟨[], ""⟩ (Nat.zero_le _)

/-- Counterexample for C1 as stated: with `max_conversation_length = 7` and
no summarization worker, eight appends leave nine... rather, leave eight
messages in the buffer, exceeding the configured bound, because the fallback
path always keeps the last 8 messages. -/
theorem conversation_buffer_bound_counterexample :
    ¬ ((runAdds c1Cfg c1Calls ⟨[], ""⟩).history.length ≤
        c1Cfg.max_conversation_length) := by decide

/-- C2 (code bug, evaluated at the failing input): with an enabled, loaded
summarization worker whose model call raises, `continuous_summarize` still
evicts the oldest turn (seven messages shrink to six) yet leaves the running
summary unchanged — no deterministic fallback is invoked, contradicting the
claim and the function's own docstring. -/
theorem continuous_summarize_silent_eviction :
    (continuous_summarize (some c2Worker) c2State).2 = true ∧
    (continuous_summarize (some c2Worker) c2State).1.history.length = 6 ∧
    c2State.history.length = 7 ∧
    (continuous_summarize (some c2Worker) c2State).1.summary = c2State.summary ∧
    (c2State.history.head?.map Message.content) = some "tell me about the dragon" :=
  ⟨rfl, rfl, rfl, rfl, rfl⟩

/-- C4: when the model call exceeds the 15 s timeout, the cycle's result is
exactly the deterministic fallback output, and it does not depend on the
text the abandoned thread would later produce — a late AI result can never
overwrite the committed summary, either at the summarizer level or across a
whole `continuous_summarize` cycle. -/
theorem late_ai_result_discarded (late late2 : Option String)
    (conversation_text current_summary : String) (max_length : Nat) (st : ConvState) :
    create_continuous_summary ⟨true, true, .timesOut late⟩ conversation_text
        current_summary max_length =
      some (create_simple_summary conversation_text current_summary max_length) ∧
    create_continuous_summary ⟨true, true, .timesOut late⟩ conversation_text
        current_summary max_length =
      create_continuous_summary ⟨true, true, .timesOut late2⟩ conversation_text
        current_summary max_length ∧
    continuous_summarize (some ⟨true, true, .timesOut late⟩) st =
      continuous_summarize (some ⟨true, true, .timesOut late2⟩) st := by
  refine ⟨rfl, rfl, ?_⟩
  have h1 : ∀ t c m, create_continuous_summary ⟨true, true, .timesOut late⟩ t c m =
      some (create_simple_summary t c m) := fun _ _ _ => rfl
  have h2 : ∀ t c m, create_continuous_summary ⟨true, true, .timesOut late2⟩ t c m =
      some (create_simple_summary t c m) := fun _ _ _ => rfl
  simp only [continuous_summarize, continuousUpdate, h1, h2]

/-- C6: every append stores, as the newest turn, exactly the truncation of
the given content: content at most `max_tokens_per_message` characters long
is stored unchanged with no marker, longer content is cut to exactly
`max_tokens_per_message` characters followed by the `...` marker, and the
append always succeeds (the truncated turn is always the last element). -/
theorem add_truncation (cfg : ConversationConfig) (w : Option Worker)
    (role content : String) (now : ℤ) (st : ConvState) :
    (add_to_conversation cfg w role content now st).history.getLast? =
      some (Message.mk role (truncateContent cfg.max_tokens_per_message content) now) ∧
    (content.length ≤ cfg.max_tokens_per_message →
      truncateContent cfg.max_tokens_per_message content = content) ∧
    (cfg.max_tokens_per_message < content.length →
      truncateContent cfg.max_tokens_per_message content =
        strTake cfg.max_tokens_per_message content ++ "..." ∧
      (strTake cfg.max_tokens_per_message content).length = cfg.max_tokens_per_message) := by
  refine ⟨?_, ?_, ?_⟩
  · obtain ⟨k, hk, hshape⟩ := add_history_shape cfg w role content now st
    rw [hshape, getLast?_lastN k _ hk (by simp)]
    exact List.getLast?_concat _
  · intro h
    simp [truncateContent, not_lt.mpr h]
  · intro h
    refine ⟨by simp [truncateContent, h], ?_⟩
    rw [strTake_length]
    omega

/-- Witness for C6: a 201-character message under the default limit of 200
is stored as exactly 200 characters plus the marker. -/
theorem add_truncation_witness :
    truncateContent defaultConversationConfig.max_tokens_per_message c6Content =
      strTake defaultConversationConfig.max_tokens_per_message c6Content ++ "..." ∧
    (strTake defaultConversationConfig.max_tokens_per_message c6Content).length =
      defaultConversationConfig.max_tokens_per_message :=
  (add_truncation defaultConversationConfig none "user" c6Content 0 ⟨[], ""⟩).2.2 (by decide)

/-- C8: the deterministic fallback summarizer is a total function (it cannot
raise) and its result is non-empty for every transcript, existing summary
and maximum length. -/
theorem simple_summary_never_empty (conversation_text current_summary : String)
    (max_length : Nat) :
    0 < (create_simple_summary conversation_text current_summary max_length).length := by
  have hposr : ∀ a b : String, 0 < b.length → 0 < (a ++ b).length := by
    intro a b h; rw [String.length_append]; omega
  have hposl : ∀ a b : String, 0 < a.length → 0 < (a ++ b).length := by
    intro a b h; rw [String.length_append]; omega
  simp only [create_simple_summary]
  split_ifs
  all_goals
    first
    | decide
    | (apply hposr; decide)
    | (apply hposl; apply hposl; decide)
    | (apply hposl; apply hposl; apply hposl; decide)

/-- C9: after `_cleanup_expired_memories` runs, every cached record whose
timestamp is older than `memory_ttl_hours` before `now` is gone, and every
record still within the TTL window is kept. -/
theorem cleanup_expired_ttl (ttl_hours now : ℤ) (cache : List (String × MemoryRecord))
    (k : String) (r : MemoryRecord) (hmem : (k, r) ∈ cache) :
    (r.timestamp < now - ttl_hours * 3600 →
      (k, r) ∉ cleanup_expired_memories ttl_hours now cache) ∧
    (now - ttl_hours * 3600 ≤ r.timestamp →
      (k, r) ∈ cleanup_expired_memories ttl_hours now cache) := by
  have hne : cache ≠ [] := List.ne_nil_of_mem hmem
  unfold cleanup_expired_memories
  rw [if_neg hne]
  constructor
  · intro hold hcon
    have h2 := (List.mem_filter.mp hcon).2
    simp only [decide_eq_true_eq] at h2
    exact h2 hold
  · intro hin
    refine List.mem_filter.mpr ⟨hmem, ?_⟩
    simp only [decide_eq_true_eq]
    exact not_lt.mpr hin

/-- Witness for C9: with a TTL of one hour at time 10000, the record stamped
0 is expired and the record stamped 9000 survives. -/
theorem cleanup_expired_ttl_witness :
    ("conv_0", (⟨0, "old question", "old answer", none, []⟩ : MemoryRecord)) ∉
      cleanup_expired_memories 1 10000 c9Cache ∧
    ("conv_9000", (⟨9000, "new question", "new answer", none, []⟩ : MemoryRecord)) ∈
      cleanup_expired_memories 1 10000 c9Cache :=
  ⟨(cleanup_expired_ttl 1 10000 c9Cache "conv_0" ⟨0, "old question", "old answer", none, []⟩
      (by decide)).1 (by decide),
   (cleanup_expired_ttl 1 10000 c9Cache "conv_9000" ⟨9000, "new question", "new answer", none, []⟩
      (by decide)).2 (by decide)⟩

/-- C10: the assembled prompt is a function of the running summary, the
current user input and only the 6 most recent buffer turns — older turns
never influence it — while the default buffer capacity is 12, strictly more
than the 6 turns that can ever appear. -/
theorem prompt_uses_last_six (summary : String) (history : List Message)
    (user_input : String) :
    buildPrompt summary history user_input =
      buildPrompt summary (lastN 6 history) user_input ∧
    defaultConversationConfig.max_conversation_length = 12 ∧
    6 < defaultConversationConfig.max_conversation_length := by
  refine ⟨?_, rfl, by decide⟩
  simp only [buildPrompt, lastN_lastN]

/-- Counterexample for C7 as stated: on a transcript with no parsed
visitor/mythic structure and a 90-character existing summary, the fallback
summarizer returns 132 characters although `max_length` is 120. -/
theorem simple_summary_length_counterexample :
    ¬ ((create_simple_summary "" c7Summary 120).length ≤ 120) := by decide

/-- C3 (code bug, evaluated at the failing input): on an empty conversation
with no summarization worker and a 1500-character user input, the assembled
prompt stays over the 350-token threshold, the forced summarization pass is
a no-op, and `format_chat_prompt` re-enters itself forever — it never
produces a prompt for any recursion budget, instead of capping at one forced
pass and proceeding with the over-budget prompt. -/
theorem format_chat_prompt_diverges :
    (∀ fuel, format_chat_prompt_aux none true c3Input fuel c3State = none) ∧
    force_summarization none c3State = c3State ∧
    350 < check_prompt_length (buildPrompt c3State.summary c3State.history c3Input) := by
  refine ⟨?_, rfl, c3_over_budget⟩
  intro fuel
  induction fuel with
  | zero => rfl
  | succ n ih => rw [c3_step n]; exact ih

/-- C7 (amended): whenever the transcript parses into at least one visitor
and one mythic message (the structured branch of the fallback summarizer)
and `max_length` is at least 3, the output is clipped to at most
`max_length` characters.  The unstructured branches are not clipped and can
exceed the budget, as the counterexample shows. -/
theorem simple_summary_clipped_bound (conversation_text current_summary : String)
    (max_length : Nat) (h3 : 3 ≤ max_length)
    (hv : (parseTranscript conversation_text).1 ≠ [])
    (hm : (parseTranscript conversation_text).2 ≠ []) :
    (create_simple_summary conversation_text current_summary max_length).length ≤
      max_length := by
  simp only [create_simple_summary]
  rw [if_pos ⟨hv, hm⟩]
  exact clip_len_le _ _ h3

/-- Witness for C7: a structured two-line transcript at the default budget
of 120 characters stays within the budget. -/
theorem simple_summary_clipped_bound_witness :
    (create_simple_summary c7Transcript "" 120).length ≤ 120 :=
  simple_summary_clipped_bound c7Transcript "" 120 (by decide) (by decide) (by decide)

/-- C5 (amended): the relevance score is the claim's weighted formula with
the source's truthiness guards (each field contributes only when non-empty)
computed in IEEE-754 binary64 arithmetic exactly as the source does, and
`recall_relevant_memory` returns the first `max_results` of the
positive-scoring records stably sorted by descending binary64 score: the
output is a permutation prefix of the positive scorers, ordered so that
earlier entries have strictly greater rounded score or equal rounded score
and an earlier original position, and every returned entry is a
positive-scoring record of the store at its original index.  Ties are ties
of the rounded float scores, not of the claim's exact weights — scores equal
in exact arithmetic can be strictly ordered after rounding (see the
counterexample). -/
theorem recall_relevance_properties (query : String) (max_results : Nat)
    (store : List MemoryRecord) :
    recall_relevant_memory query max_results store =
      (sortByRelevance query
        (store.enum.filter fun p => 0 < relevance_score query p.2)).take max_results ∧
    (sortByRelevance query
      (store.enum.filter fun p => 0 < relevance_score query p.2)).Perm
        (store.enum.filter fun p => 0 < relevance_score query p.2) ∧
    (sortByRelevance query
      (store.enum.filter fun p => 0 < relevance_score query p.2)).Pairwise
        (fun a b => relevance_score query b.2 < relevance_score query a.2 ∨
          (relevance_score query a.2 = relevance_score query b.2 ∧ a.1 < b.1)) ∧
    (recall_relevant_memory query max_results store).length ≤ max_results ∧
    (∀ p ∈ recall_relevant_memory query max_results store,
      0 < relevance_score query p.2 ∧ store[p.1]? = some p.2) := by
  refine ⟨rfl, sortByRelevance_perm _ _,
    sortByRelevance_pairwise _ _ (List.Pairwise.filter _ (pairwise_fst_enum store)),
    ?_, ?_⟩
  · simp only [recall_relevant_memory]
    rw [List.length_take]
    exact Nat.min_le_left _ _
  · intro p hp
    have hp1 : p ∈ sortByRelevance query
        (store.enum.filter fun q2 => 0 < relevance_score query q2.2) :=
      List.mem_of_mem_take hp
    have hp2 : p ∈ store.enum.filter fun q2 => 0 < relevance_score query q2.2 :=
      (sortByRelevance_perm _ _).mem_iff.mp hp1
    have hp3 := List.mem_filter.mp hp2
    refine ⟨?_, getElem?_of_mem_enum hp3.1⟩
    simpa using hp3.2

/-- Witness for C5: in the spec's three-record scenario the summary-matching
record is returned first, at its original index, with a positive score. -/
theorem recall_relevance_properties_witness :
    0 < relevance_score "dragon" c5RecA ∧ c5Store[0]? = some c5RecA :=
  (recall_relevance_properties "dragon" 3 c5Store).2.2.2.2 (0, c5RecA) (by decide)

/-- Counterexample for C5 as stated, in two parts.  Truthiness guards: on
the empty query and a record whose `user_input` and `ai_response` are both
empty, the claim's formula gives +2 and +1 (the empty query is a substring
of the empty fields), so the record should be returned; the source's guards
score it 0 and `recall_relevant_memory` returns nothing.  Float rounding:
the claim's exact weights tie `c5FloatRec1` and `c5FloatRec2` at 1.8
(both 18 in tenths), so the claim predicts original iteration order
`[rec1, rec2]`; the source's binary64 arithmetic gives
`6 * 0.3 = 1.7999999999999998 < 3 * 0.5 + 0.3 = 1.8000000000000000444...`,
so the code returns `[rec2, rec1]`. -/
theorem recall_scoring_counterexample :
    (relevance_score_claim "" c5EmptyRecord = 30 ∧
     relevance_score "" c5EmptyRecord = 0 ∧
     recall_relevant_memory "" 1 [c5EmptyRecord] = []) ∧
    (relevance_score_claim c5FloatQuery c5FloatRec1 = 18 ∧
     relevance_score_claim c5FloatQuery c5FloatRec2 = 18 ∧
     relevance_score c5FloatQuery c5FloatRec1 = 32425917317067568 ∧
     relevance_score c5FloatQuery c5FloatRec2 = 32425917317067572 ∧
     recall_relevant_memory c5FloatQuery 2 [c5FloatRec1, c5FloatRec2] =
       [(1, c5FloatRec2), (0, c5FloatRec1)]) := by
  refine ⟨⟨rfl, rfl, rfl⟩, ⟨by decide, by decide, by decide, by decide, by decide⟩⟩

end MythicLite
